import Mathlib

/-!
Verification development for the Memora quiz application.

The definitions below are a shallow embedding, into Lean, of the
quiz-generation and quiz-taking pipeline of the repository:

* `backend/routes/quiz.js` (multer upload configuration),
* `backend/controllers/quizController.js` (text extraction fallback chain,
  LLM response repair/parsing, question validation, quiz lifecycle,
  attempt grading, progress save/load),
* `backend/models/Quiz.js`, `backend/models/QuizAttempt.js`,
  `backend/models/QuizProgress.js` (schema constraints),
* `frontend/app/quiz/[quizId]/page.tsx` (quiz-taking session: timer,
  autosave/restore, submission).

JavaScript strings are modelled as Lean `String` (a sequence of
characters), JS `null`/`undefined` as `Option`/an explicit `JSVal`
constructor, thrown exceptions as `Except`, and the external services
(pdf libraries, the LLM, `JSON.parse`) as oracle arguments.
-/

namespace Memora

/-! ## JavaScript-style primitives -/

/-- Truthiness of a nullable JS string (`!!s` where `s : string | null`):
`null` and the empty string are falsy. -/
def jsTruthyOptStr : Option String → Bool
  | none => false
  | some s => s ≠ ""

/-- The JS idiom `s || null` applied to a nullable string: a falsy value
(here `null` or `""`) is replaced by `null`. -/
def jsOrNull (s : Option String) : Option String :=
  if jsTruthyOptStr s then s else none

/-- The JS idiom `s || ''` applied to a possibly-missing string. -/
def jsOrEmpty : Option String → String
  | none => ""
  | some s => s

/-- Whitespace, as both `String.prototype.trim` and the regex `\s` see
it (restricted to the ASCII whitespace that occurs in practice). -/
def jsIsSpaceChar (c : Char) : Bool := c.isWhitespace

/-- JS `String.prototype.trim` on the character list. -/
def trimChars (l : List Char) : List Char :=
  ((l.dropWhile jsIsSpaceChar).reverse.dropWhile jsIsSpaceChar).reverse

/-- JS `String.prototype.trim`. -/
def jsTrim (s : String) : String := String.mk (trimChars s.toList)

/-- JS `String.prototype.toLowerCase` (simple per-character lowering). -/
def jsToLower (s : String) : String :=
  String.mk (s.toList.map Char.toLower)

/-! ## C1: the PDF extraction fallback chain

`uploadFiles` in `backend/controllers/quizController.js` processes a PDF by
trying `pdf-parse` (`extractTextFromPDF`), then `pdf2json`
(`extractTextFromPDFAlternative`), then `tesseract.js` OCR
(`extractTextFromPDFWithOCR`).  Each extraction library is modelled as an
oracle of type `Except String String`: either the extracted text or the
message of the thrown error. -/

/-- The three PDF text-extraction methods used by `uploadFiles`. -/
inductive ExtractMethod where
  | pdfParse
  | pdf2json
  | tesseractOCR
deriving DecidableEq, Repr

/-- Outcome of the PDF branch of the per-file loop in `uploadFiles`:
the final `extractedText` (JS `string | null`), the final
`processingError`, and the list of extraction methods that were attempted,
in order. -/
structure PdfChainResult where
  extractedText : Option String
  processingError : Option String
  attempts : List ExtractMethod
deriving DecidableEq, Repr

/-- The nested `try`/`catch` chain of `uploadFiles` for
`file.mimetype === 'application/pdf'` (quizController.js lines 388-413):
`pdf-parse` first; on throw, `pdf2json`; on throw, OCR; if all three throw,
`extractedText = null` and `processingError` records the original
`pdf-parse` error. -/
def runPdfExtractionChain (rParse rAlt rOcr : Except String String) :
    PdfChainResult :=
  match rParse with
  | .ok t => ⟨some t, none, [.pdfParse]⟩
  | .error e1 =>
    match rAlt with
    | .ok t => ⟨some t, none, [.pdfParse, .pdf2json]⟩
    | .error _ =>
      match rOcr with
      | .ok t => ⟨some t, none, [.pdfParse, .pdf2json, .tesseractOCR]⟩
      | .error _ =>
        ⟨none,
         some ("All PDF extraction methods failed. Original error: " ++ e1),
         [.pdfParse, .pdf2json, .tesseractOCR]⟩

/-- The extraction oracles available while processing one uploaded file:
results of `fs.readFile` (TXT), the three PDF methods, and `mammoth`
(DOCX). -/
structure ExtractOracles where
  txtRead : Except String String
  pdfParse : Except String String
  pdf2json : Except String String
  ocr : Except String String
  docx : Except String String

/-- The fields of the `UploadedFile` document built by `uploadFiles`
(quizController.js lines 444-456) that the claims speak about. -/
structure UploadedFileRecord where
  mime_type : String
  extracted_text : Option String
  is_processed : Bool
  processing_error : Option String
deriving DecidableEq, Repr

/-- Per-file processing loop body of `uploadFiles`: dispatch on mimetype,
run the extraction, and build the `fileData` record
(`extracted_text: extractedText || null`, `is_processed: !!extractedText`).
Also returns the list of PDF extraction methods attempted (empty for
non-PDF files). -/
def processUploadedFile (mime : String) (o : ExtractOracles) :
    UploadedFileRecord × List ExtractMethod :=
  let outcome : Option String × Option String × List ExtractMethod :=
    if mime = "text/plain" then
      match o.txtRead with
      | .ok t => (some t, none, [])
      | .error e => (some "", some e, [])
    else if mime = "application/pdf" then
      let r := runPdfExtractionChain o.pdfParse o.pdf2json o.ocr
      (r.extractedText, r.processingError, r.attempts)
    else if mime = "application/vnd.openxmlformats-officedocument.wordprocessingml.document" then
      match o.docx with
      | .ok t => (some t, none, [])
      | .error e => (some "", some e, [])
    else if mime = "application/vnd.openxmlformats-officedocument.presentationml.presentation" then
      (some "", some "PPTX file type not yet supported", [])
    else
      (some "", some "Unsupported file type", [])
  (⟨mime, jsOrNull outcome.1, jsTruthyOptStr outcome.1, outcome.2.1⟩,
   outcome.2.2)

/-- The `uploadFiles` controller: HTTP status and the list of persisted
`UploadedFile` records.  An empty file list yields 400; otherwise every
file is processed and persisted and the response status is 200
(extraction failures are caught per file and never abort the request). -/
def uploadFiles (files : List (String × ExtractOracles)) :
    Nat × List UploadedFileRecord :=
  if files.isEmpty then (400, [])
  else (200, files.map (fun f => (processUploadedFile f.1 f.2).1))

/-! ## C2: grading of a submitted quiz attempt

`submitQuizAttempt` (quizController.js lines 715-915) looks up each
submitted answer's question in the quiz, grades it by trimmed,
case-insensitive comparison with `correct_answer`, and stores the attempt
with `score = Math.round((correctCount / totalQuestions) * 100)`.
The `QuizAttempt` schema (models/QuizAttempt.js) requires
`0 <= score <= 100` (`min: 0, max: 100`). -/

/-- A question subdocument of a completed quiz (models/Quiz.js
`questionSchema`), with its Mongo `_id` rendered as a string. -/
structure Question where
  qid : String
  question_text : String
  question_type : String
  options : List String
  correct_answer : String
deriving DecidableEq, Repr

/-- One element of the `answers` array of the submit request body.
`user_answer` may be absent (`undefined`), which the controller coerces
with `answer.user_answer || ''`. -/
structure SubmittedAnswer where
  question_id : String
  user_answer : Option String
  time_spent : Nat
deriving DecidableEq, Repr

/-- One element of the `processedAnswers` array stored on the attempt. -/
structure GradedAnswer where
  question_id : String
  user_answer : String
  is_correct : Bool
  time_spent : Nat
deriving DecidableEq, Repr

/-- JS `Math.round` on an exact rational: round half toward positive
infinity. -/
def mathRound (q : ℚ) : ℤ :=
  Int.floor (q + 1 / 2)

/-- Processing of a single submitted answer inside
`answers.map(...)` (quizController.js lines 762-842): find the question by
id (`is_correct = false` when none matches), then
`isCorrect = wasAnswered && userAnswerNormalized === correctAnswerNormalized`
with both sides trimmed and lowercased. -/
def gradeAnswer (questions : List Question) (a : SubmittedAnswer) :
    GradedAnswer :=
  match questions.find? (fun q => q.qid = a.question_id) with
  | none =>
    ⟨a.question_id, jsOrEmpty a.user_answer, false, a.time_spent⟩
  | some q =>
    let userAnswer := jsOrEmpty a.user_answer
    let wasAnswered := jsTrim userAnswer ≠ ""
    let isCorrect := wasAnswered ∧
      jsToLower (jsTrim userAnswer) =
        jsToLower (jsTrim (jsOrEmpty (some q.correct_answer)))
    ⟨a.question_id, userAnswer, decide isCorrect, a.time_spent⟩

/-- The attempt document assembled by `submitQuizAttempt`
(`attemptData`, quizController.js lines 863-874), restricted to the fields
the claims mention. -/
structure AttemptData where
  answers : List GradedAnswer
  score : ℤ
  total_questions : Nat
  correct_answers : Nat
  forced_by_timer : Bool
deriving DecidableEq, Repr

/-- Grading and scoring of a whole submission: the `answers.map` loop, the
`correctCount` tally, and
`score = totalQuestions > 0 ? Math.round((correctCount/totalQuestions)*100) : 0`,
together with `forced_by_timer: forcedByTimer || false`. -/
def processAttempt (questions : List Question)
    (answers : List SubmittedAnswer) (forcedByTimer : Option Bool) :
    AttemptData :=
  let processed := answers.map (gradeAnswer questions)
  let correctCount := processed.countP (fun g => g.is_correct)
  let totalQuestions := questions.length
  let score : ℤ :=
    if totalQuestions > 0 then
      mathRound ((correctCount : ℚ) / (totalQuestions : ℚ) * 100)
    else 0
  ⟨processed, score, totalQuestions, correctCount,
   forcedByTimer.getD false⟩

/-- Creation via `QuizAttempt.create`: mongoose validation of the `score` path
(models/QuizAttempt.js, `min: 0, max: 100`). Creation fails — nothing is
stored and the controller answers 500 — when the score is out of range. -/
def quizAttemptCreate (d : AttemptData) : Except String AttemptData :=
  if 0 ≤ d.score ∧ d.score ≤ 100 then .ok d
  else .error "ValidationError"

/-! ## C3: parsing and repair of the LLM response

`generateQuizWithAI` (quizController.js lines 276-309) first tries
`JSON.parse(textContent)` directly; only when that throws does it run the
cleanup pipeline: trim, strip code fences, cut out the bracketed
substring, run the quote-class replacements, delete trailing commas, and
re-parse.  `JSON.parse` itself is a library call and is modelled as an
oracle `String → Option JSVal`. -/

/-- A JavaScript value as produced by `JSON.parse` (plus `undefined`,
which property access on a missing key yields). -/
inductive JSVal where
  | undefinedV
  | null
  | boolean (b : Bool)
  | num (q : ℚ)
  | str (s : String)
  | arr (elems : List JSVal)
  | obj (fields : List (String × JSVal))

/-- The ASCII apostrophe character. -/
def apostropheChar : Char := Char.ofNat 39

/-- Case-insensitive literal prefix match, returning the remaining
characters on success. -/
def matchPrefixCI : List Char → List Char → Option (List Char)
  | [], rest => some rest
  | _ :: _, [] => none
  | p :: ps, c :: cs =>
    if p.toLower = c.toLower then matchPrefixCI ps cs else none

/-- One global-regex pass `replace(/<pat>\s*/gi, '')`: scan left to right
and delete every occurrence of the literal pattern together with the
whitespace that follows it.  The fuel argument (instantiated with the
length of the text) keeps the recursion structural. -/
def stripPatFuel (pat : List Char) : Nat → List Char → List Char
  | 0, s => s
  | _ + 1, [] => []
  | fuel + 1, c :: cs =>
    match matchPrefixCI pat (c :: cs) with
    | some rest => stripPatFuel pat fuel (rest.dropWhile jsIsSpaceChar)
    | none => c :: stripPatFuel pat fuel cs

/-- The two fence-stripping passes of the cleanup
(`replace(/` ```json `\s*/gi, '').replace(/` ``` `\s*/g, '')`). -/
def stripCodeFences (s : List Char) : List Char :=
  let pass1 := stripPatFuel "```json".toList s.length s
  stripPatFuel "```".toList pass1.length pass1

/-- JS `textContent.indexOf(c)`, as an `Option`al index. -/
def firstIdxOf (c : Char) (s : List Char) : Option Nat :=
  s.findIdx? (fun d => d = c)

/-- JS `textContent.lastIndexOf(c)`, as an `Option`al index. -/
def lastIdxOf (c : Char) (s : List Char) : Option Nat :=
  match (s.reverse.findIdx? (fun d => d = c)) with
  | some i => some (s.length - 1 - i)
  | none => none

/-- The quote-class passes of the cleanup, exactly as in the source:
`replace(/["\x22]/g, '"')` and `replace(/['\x27]/g, "'")` — both regex
character classes consist of ASCII quotes only (the source bytes contain
no curly quotes), so each character is replaced by itself. -/
def replaceQuoteClasses (s : List Char) : List Char :=
  s.map (fun c =>
    if c = '"' then '"'
    else if c = apostropheChar then apostropheChar
    else c)

/-- Whether the first non-whitespace character is a closing brace or
bracket (the lookahead of the trailing-comma regex). -/
def closesAfterWs (s : List Char) : Bool :=
  match s.dropWhile jsIsSpaceChar with
  | c :: _ => c = '}' ∨ c = ']'
  | [] => false

/-- The trailing-comma pass of the cleanup
(`replace(/,(\s*[}\x5d])/g, '$1')`): a comma followed by whitespace and a
closing brace/bracket is deleted, the whitespace and bracket kept. -/
def removeTrailingCommas : List Char → List Char
  | [] => []
  | c :: cs =>
    if c = ',' ∧ closesAfterWs cs then removeTrailingCommas cs
    else c :: removeTrailingCommas cs

/-- The check applied to the parsed value in `generateQuizWithAI`
(lines 303-309): it must be an array (`Array.isArray`) and non-empty. -/
def checkQuestionsArray (j : JSVal) : Except String (List JSVal) :=
  match j with
  | .arr qs =>
    if qs.isEmpty then .error "Generated questions array is empty"
    else .ok qs
  | _ => .error "Generated response is not an array"

/-- The cleanup pipeline of the `catch` branch (lines 282-298): trim,
strip fences, locate the outermost brackets — failing when either is
missing — cut the bracketed substring, run the quote-class passes and the
trailing-comma pass. -/
def repairJsonText (textContent : String) : Except String String :=
  let t := stripCodeFences (trimChars textContent.toList)
  match firstIdxOf '[' t, lastIdxOf ']' t with
  | some firstBracket, some lastBracket =>
    let cut := (t.drop firstBracket).take (lastBracket + 1 - firstBracket)
    .ok (String.mk (removeTrailingCommas (replaceQuoteClasses cut)))
  | _, _ => .error "AI response does not contain a JSON array"

/-- Parsing of the LLM response text in `generateQuizWithAI`: direct
`JSON.parse` first; on throw, the cleanup pipeline and a re-parse; then
the array checks.  A `JSON.parse` throw after cleanup propagates as a
generation failure. -/
def parseAIResponse (jsonParse : String → Option JSVal)
    (textContent : String) : Except String (List JSVal) :=
  match jsonParse textContent with
  | some j => checkQuestionsArray j
  | none =>
    match repairJsonText textContent with
    | .error e => .error e
    | .ok repaired =>
      match jsonParse repaired with
      | some j => checkQuestionsArray j
      | none => .error "Unexpected token in JSON"

/-! ## C4: validation and filtering of the parsed questions

The filter of `generateQuizWithAI` (quizController.js lines 313-347) runs
over the parsed array.  A parsed question is a JS object; its fields are
accessed with plain property reads, so the embedding works on the
`fields` list of a `JSVal.obj` (property access on a missing key yields
`undefined`). -/

/-- JS truthiness of a value. -/
def jsTruthy : JSVal → Bool
  | .undefinedV => false
  | .null => false
  | .boolean b => b
  | .num q => q ≠ 0
  | .str s => s ≠ ""
  | .arr _ => true
  | .obj _ => true

/-- Property read `v[name]` on an object value (first matching key;
missing keys give `undefined`). -/
def getField (fields : List (String × JSVal)) (name : String) : JSVal :=
  match fields.find? (fun f => f.1 = name) with
  | some f => f.2
  | none => .undefinedV

/-- The test `typeof v === 'string'`. -/
def isStrType : JSVal → Bool
  | .str _ => true
  | _ => false

/-- Strict equality `v === lit` against a string literal. -/
def strictEqStr (v : JSVal) (lit : String) : Bool :=
  match v with
  | .str s => s = lit
  | _ => false

/-- Membership `quizTypes.includes(v)` where `quizTypes` is an array of strings
(strict-equality membership). -/
def jsIncludes (quizTypes : List String) (v : JSVal) : Bool :=
  match v with
  | .str s => quizTypes.contains s
  | _ => false

/-- The test `Array.isArray(v) && v.length >= 2`. -/
def isArrayLenGe2 : JSVal → Bool
  | .arr xs => 2 ≤ xs.length
  | _ => false

/-- The filter predicate of `generateQuizWithAI` (lines 314-325), on a
parsed question that is an object with fields `q`:
`hasQuestionText && hasQuestionType && hasCorrectAnswer && hasValidOptions`
(the `q && ...` conjuncts of the source are true here, `q` being an
object). -/
def validQuestion (quizTypes : List String)
    (q : List (String × JSVal)) : Bool :=
  let hasQuestionText :=
    jsTruthy (getField q "question_text") && isStrType (getField q "question_text")
  let hasQuestionType :=
    jsTruthy (getField q "question_type") && jsIncludes quizTypes (getField q "question_type")
  let hasCorrectAnswer := jsTruthy (getField q "correct_answer")
  let hasValidOptions :=
    !(strictEqStr (getField q "question_type") "multiple-choice") ||
      isArrayLenGe2 (getField q "options")
  hasQuestionText && hasQuestionType && hasCorrectAnswer && hasValidOptions

/-- The filter predicate on an arbitrary array element.  A `null` or
`undefined` element makes the filter callback throw a `TypeError`
(the `hasValidOptions` line reads `q.question_type` without a guard); on
any other non-object the property reads yield `undefined` and the
element is filtered out. -/
def validQuestionE (quizTypes : List String) (q : JSVal) :
    Except String Bool :=
  match q with
  | .null => .error "TypeError: Cannot read properties of null"
  | .undefinedV => .error "TypeError: Cannot read properties of undefined"
  | .obj fs => .ok (validQuestion quizTypes fs)
  | _ => .ok false

/-- The call `questions.filter(...)` with the possibly-throwing callback. -/
def filterQuestionsE (quizTypes : List String) :
    List JSVal → Except String (List JSVal)
  | [] => .ok []
  | q :: qs =>
    match validQuestionE quizTypes q with
    | .error e => .error e
    | .ok b =>
      match filterQuestionsE quizTypes qs with
      | .error e => .error e
      | .ok rest => .ok (if b then q :: rest else rest)

/-- Validation/filtering stage of `generateQuizWithAI` (lines 313-347):
filter the questions, fail on zero survivors, fail when fewer than half
the requested count survive (`validQuestions.length < totalQuestions * 0.5`,
equivalently `2 * valid < total` over integers), otherwise return
`validQuestions.slice(0, totalQuestions)`. -/
def filterAndSlice (quizTypes : List String) (totalQuestions : Nat)
    (questions : List JSVal) : Except String (List JSVal) :=
  match filterQuestionsE quizTypes questions with
  | .error e => .error e
  | .ok validQuestions =>
    if validQuestions.isEmpty then
      .error "No valid questions found in AI response"
    else if 2 * validQuestions.length < totalQuestions then
      .error "Only generated fewer valid questions than requested"
    else
      .ok (validQuestions.take totalQuestions)

/-- The whole `generateQuizWithAI` post-API stage: response parsing with
repair (C3) followed by validation/filtering (C4). -/
def generateQuizPipeline (jsonParse : String → Option JSVal)
    (textContent : String) (quizTypes : List String)
    (totalQuestions : Nat) : Except String (List JSVal) :=
  match parseAIResponse jsonParse textContent with
  | .error e => .error e
  | .ok questions => filterAndSlice quizTypes totalQuestions questions

/-- Validation predicate as the claim words it: a string `question_text`,
a `question_type` contained in the requested quiz types, a truthy
`correct_answer`, and, for multiple-choice, an options array of length at
least 2.  (Spec-side definition, for comparison with `validQuestion`.) -/
def claimValidQuestion (quizTypes : List String)
    (q : List (String × JSVal)) : Bool :=
  isStrType (getField q "question_text") &&
    jsIncludes quizTypes (getField q "question_type") &&
    jsTruthy (getField q "correct_answer") &&
    (!(strictEqStr (getField q "question_type") "multiple-choice") ||
      isArrayLenGe2 (getField q "options"))

/-! ## C9: truncation of the combined document text

`generateQuizWithAI` lines 153-167: the extracted texts are joined with
`'\n\n---\n\n'` and the combination is cut to its first 30000 characters,
plus a marker, whenever it is longer than 30000 characters. -/

/-- The join `extractedTexts.join('\n\n---\n\n')`. -/
def combinedText (extractedTexts : List String) : String :=
  String.intercalate "\n\n---\n\n" extractedTexts

/-- The truncation marker appended by `generateQuizWithAI`. -/
def truncationMarker : String := "\n\n[Text truncated due to length...]"

/-- The `maxLength` constant of `generateQuizWithAI`. -/
def maxLength : Nat := 30000

/-- JS `combinedText.substring(0, n)` (character-level prefix). -/
def jsSubstrTo (s : String) (n : Nat) : String :=
  String.mk (s.toList.take n)

/-- The `truncatedText` value: the text embedded in the LLM prompt
(`combined.length > maxLength ? combined.substring(0, maxLength) + marker : combined`). -/
def truncatedText (combined : String) : String :=
  if combined.length > maxLength then
    jsSubstrTo combined maxLength ++ truncationMarker
  else combined

/-! ## C5/C6: the quiz-taking session
(`frontend/app/quiz/[quizId]/page.tsx`)

The component state relevant to the claims, with JS `Date`s as epoch
milliseconds and the `answers` `Map` as an insertion-ordered association
list (`Map.prototype.set` updates an existing key in place). -/

/-- The quiz object used by the taking page (`Quiz` interface):
`time_limit` is in minutes, `null` for untimed quizzes. -/
structure FrontQuiz where
  questions : List Question
  time_limit : Option Nat
deriving DecidableEq, Repr

/-- JS `Map.prototype.get`. -/
def mapGet (m : List (String × String)) (k : String) : Option String :=
  (m.find? (fun e => e.1 = k)).map (fun e => e.2)

/-- JS `Map.prototype.set`: update the existing entry in place, else append. -/
def mapSet (m : List (String × String)) (k v : String) :
    List (String × String) :=
  match m with
  | [] => [(k, v)]
  | e :: rest =>
    if e.1 = k then (k, v) :: rest else e :: mapSet rest k v

/-- The React state of `TakeQuizPage` that the claims are about. -/
structure SessionState where
  quiz : Option FrontQuiz
  hasToken : Bool
  currentQuestionIndex : Nat
  answers : List (String × String)
  startTime : Nat
  timeRemaining : Option Int
  isSubmitting : Bool
  showIncompleteWarning : Bool
  progressLoaded : Bool
deriving DecidableEq, Repr

/-- The check `areAllQuestionsAnswered` (page.tsx lines 298-304): every question has
an answer in the map that is non-empty after trimming. -/
def areAllQuestionsAnswered (quiz : Option FrontQuiz)
    (answers : List (String × String)) : Bool :=
  match quiz with
  | none => false
  | some qz =>
    qz.questions.all (fun q =>
      match mapGet answers q.qid with
      | some a => jsTrim a ≠ ""
      | none => false)

/-- The helper `getUnansweredQuestions` (page.tsx lines 306-314): map each question
to its index when unanswered, `-1` otherwise, then filter out the `-1`s. -/
def getUnansweredQuestions (quiz : Option FrontQuiz)
    (answers : List (String × String)) : List Int :=
  match quiz with
  | none => []
  | some qz =>
    (qz.questions.enum.map (fun p =>
      match mapGet answers p.2.qid with
      | some a => if jsTrim a = "" then (p.1 : Int) else -1
      | none => (p.1 : Int))).filter (fun i => i ≠ -1)

/-- One entry of the submitted `answers` array (`Answer` interface). -/
structure AnswerOut where
  question_id : String
  user_answer : String
  time_spent : Nat
deriving DecidableEq, Repr

/-- The answer array built by `handleSubmitQuiz` (page.tsx lines 340-347):
an entry for every question of the quiz; unanswered questions submit the
empty string, answered ones their trimmed answer. -/
def buildAnswerArray (questions : List Question)
    (answers : List (String × String)) : List AnswerOut :=
  questions.map (fun q =>
    ⟨q.qid,
     match mapGet answers q.qid with
     | some a => jsTrim a
     | none => "",
     0⟩)

/-- The body of the request `handleSubmitQuiz` posts to
`/quiz/:quizId/submit` (timestamps elided). -/
structure SubmitRequest where
  answers : List AnswerOut
  forcedByTimer : Bool
deriving DecidableEq, Repr

/-- Observable outcome of one `handleSubmitQuiz` call: the request sent
to the server (if any), the resulting `showIncompleteWarning` flag, and
the question index navigated to (if any). -/
structure SubmitResult where
  request : Option SubmitRequest
  showIncompleteWarning : Bool
  navigateTo : Option Int
deriving DecidableEq, Repr

/-- The handler `handleSubmitQuiz(forceSubmit)` (page.tsx lines 316-392): return
early when there is no quiz/token or a submission is in flight; when not
forced and not all questions are answered, show the incomplete warning
and navigate to the first unanswered question without sending anything;
otherwise send the submit request with `forcedByTimer = forceSubmit`. -/
def handleSubmitQuiz (st : SessionState) (forceSubmit : Bool) :
    SubmitResult :=
  match st.quiz with
  | none => ⟨none, st.showIncompleteWarning, none⟩
  | some qz =>
    if !st.hasToken || st.isSubmitting then
      ⟨none, st.showIncompleteWarning, none⟩
    else if !forceSubmit && !areAllQuestionsAnswered (some qz) st.answers then
      ⟨none, true, (getUnansweredQuestions (some qz) st.answers).head?⟩
    else
      ⟨some ⟨buildAnswerArray qz.questions st.answers, forceSubmit⟩,
       st.showIncompleteWarning, none⟩

/-- One tick of the countdown interval (page.tsx lines 112-121): at
`prev <= 1` (or `null`) the interval is cleared, `handleSubmitQuiz(true)`
runs and the remaining time becomes 0; otherwise the time decreases by
one second. -/
def timerTick (st : SessionState) : SessionState × Option SubmitResult :=
  match st.timeRemaining with
  | some prev =>
    if prev ≤ 1 then
      ({ st with timeRemaining := some 0 }, some (handleSubmitQuiz st true))
    else
      ({ st with timeRemaining := some (prev - 1) }, none)
  | none =>
    ({ st with timeRemaining := some 0 }, some (handleSubmitQuiz st true))

/-- The `else if (timeRemaining === 0 && !isSubmitting)` branch of the
timer effect (page.tsx lines 126-128): a session sitting at zero
remaining time immediately submits with `forceSubmit = true`. -/
def timeoutEffect (st : SessionState) : Option SubmitResult :=
  if st.timeRemaining = some 0 ∧ st.isSubmitting = false then
    some (handleSubmitQuiz st true)
  else none

/-- The `disabled` attribute of the submit button (page.tsx line 574):
`isSubmitting || !allAnswered`. -/
def submitButtonDisabled (st : SessionState) : Bool :=
  st.isSubmitting || !(areAllQuestionsAnswered st.quiz st.answers)

/-! ## C7: progress autosave and restore

Frontend: `saveQuizProgress`/`loadQuizProgress` (page.tsx lines 131-142,
179-276).  Backend: `saveQuizProgress`/`getQuizProgress`
(quizController.js lines 1168-1252) over the `QuizProgress` collection
(models/QuizProgress.js), keyed by `(quiz_id, user_id, is_completed: false)`
with `findOneAndUpdate(..., { upsert: true })`. -/

/-- The body posted by the frontend `saveQuizProgress` (the `answers` map
serialised as an object, preserving entries). -/
structure ProgressBody where
  currentQuestionIndex : Nat
  answers : List (String × String)
  startTime : Nat
  timeRemaining : Option Int
deriving DecidableEq, Repr

/-- The save payload built from the session state (page.tsx lines
253-269). -/
def savePayload (st : SessionState) : ProgressBody :=
  ⟨st.currentQuestionIndex, st.answers, st.startTime, st.timeRemaining⟩

/-- A document of the `QuizProgress` collection. -/
structure ProgressRecord where
  quiz_id : String
  user_id : String
  current_question_index : Nat
  answers : List (String × String)
  start_time : Nat
  time_remaining : Option Int
  is_completed : Bool
deriving DecidableEq, Repr

/-- The filter of both backend endpoints:
`{ quiz_id, user_id, is_completed: false }`. -/
def progressKeyMatch (quizId userId : String) (r : ProgressRecord) : Bool :=
  r.quiz_id == quizId && r.user_id == userId && !r.is_completed

/-- Backend `saveQuizProgress`: `findOneAndUpdate` with `upsert: true` —
update the first matching document, or insert a new one built from the
filter plus the update. -/
def upsertProgress (quizId userId : String) (b : ProgressBody) :
    List ProgressRecord → List ProgressRecord
  | [] =>
    [⟨quizId, userId, b.currentQuestionIndex, b.answers, b.startTime,
      b.timeRemaining, false⟩]
  | r :: rs =>
    if progressKeyMatch quizId userId r then
      { r with
        current_question_index := b.currentQuestionIndex
        answers := b.answers
        start_time := b.startTime
        time_remaining := b.timeRemaining } :: rs
    else r :: upsertProgress quizId userId b rs

/-- Backend `getQuizProgress`: `findOne` with the same filter. -/
def findProgress (quizId userId : String)
    (store : List ProgressRecord) : Option ProgressRecord :=
  store.find? (progressKeyMatch quizId userId)

/-- The JS idiom `n || 0` on a number. -/
def jsOrZero (n : Nat) : Nat :=
  if n = 0 then 0 else n

/-- Frontend `loadQuizProgress` (page.tsx lines 179-247) applied to the
response of `getQuizProgress`: restore index, answers, remaining time
(falling back to `time_limit * 60` when none was saved and the quiz is
timed) and start time; with no usable saved progress, only initialise the
remaining time of a timed quiz.  In every branch `progressLoaded`
becomes true. -/
def restoreFromProgress (qz : FrontQuiz) (st : SessionState)
    (progress : Option ProgressRecord) : SessionState :=
  match progress with
  | some p =>
    if p.is_completed = false then
      let st1 := { st with
        currentQuestionIndex := jsOrZero p.current_question_index
        answers := p.answers }
      let st2 :=
        match p.time_remaining with
        | some t => { st1 with timeRemaining := some t }
        | none =>
          match qz.time_limit with
          | some tl =>
            if tl ≠ 0 then { st1 with timeRemaining := some ((tl : Int) * 60) }
            else st1
          | none => st1
      { st2 with startTime := p.start_time, progressLoaded := true }
    else
      match qz.time_limit with
      | some tl =>
        if tl ≠ 0 ∧ st.timeRemaining = none then
          { st with timeRemaining := some ((tl : Int) * 60), progressLoaded := true }
        else { st with progressLoaded := true }
      | none => { st with progressLoaded := true }
  | none =>
    match qz.time_limit with
    | some tl =>
      if tl ≠ 0 ∧ st.timeRemaining = none then
        { st with timeRemaining := some ((tl : Int) * 60), progressLoaded := true }
      else { st with progressLoaded := true }
    | none => { st with progressLoaded := true }

/-! ## C8: the quiz lifecycle

`generateQuiz` (quizController.js lines 497-608) creates the quiz with
`status: 'generating'`, answers 202 immediately, and the detached
generation promise resolves the record exactly once to `completed` (with
the questions) or `failed` (with `generation_error`).  `getQuiz`
(lines 692-713) and `submitQuizAttempt` (lines 739-744) query with
`status: 'completed'` in the filter. -/

/-- The `status` enum of the Quiz schema (models/Quiz.js lines 78-86). -/
inductive QuizStatus where
  | generating
  | completed
  | failed
deriving DecidableEq, Repr

/-- A Quiz document, restricted to the lifecycle fields. -/
structure QuizRecord where
  status : QuizStatus
  questions : List JSVal
  generation_error : Option String
  is_deleted : Bool

/-- The record built by `Quiz.create` in `generateQuiz`
(`status: 'generating'`, no questions yet). -/
def newQuizRecord : QuizRecord :=
  ⟨.generating, [], none, false⟩

/-- The HTTP status `generateQuiz` answers with, before generation
finishes. -/
def generateQuizResponseStatus : Nat := 202

/-- The `.then`/`.catch` continuation of the generation promise
(quizController.js lines 578-591). -/
def resolveGeneration (q : QuizRecord)
    (result : Except String (List JSVal)) : QuizRecord :=
  match result with
  | .ok questions => { q with questions := questions, status := .completed }
  | .error e => { q with status := .failed, generation_error := some e }

/-- The quiz records reachable for a fixed generation configuration: the
freshly created record, and the result of resolving the generation
promise of a still-`generating` record with the outcome of the
generation pipeline.  Nothing else in the repository writes
`quiz.status`. -/
inductive QuizReachable (jsonParse : String → Option JSVal)
    (quizTypes : List String) (totalQuestions : Nat) : QuizRecord → Prop
  | created : QuizReachable jsonParse quizTypes totalQuestions newQuizRecord
  | resolved (q : QuizRecord) (textContent : String) :
      QuizReachable jsonParse quizTypes totalQuestions q →
      q.status = .generating →
      QuizReachable jsonParse quizTypes totalQuestions
        (resolveGeneration q
          (generateQuizPipeline jsonParse textContent quizTypes totalQuestions))

/-- The document filter shared by `getQuiz` and `submitQuizAttempt`:
`{ is_deleted: false, status: 'completed' }` (the `_id`/`user_id` parts
are identity of the record and elided). -/
def completedQuizFilter (q : QuizRecord) : Bool :=
  !q.is_deleted && q.status == QuizStatus.completed

/-- The `findOne` query over the quizzes visible to the requesting user. -/
def findCompletedQuiz (store : List QuizRecord) : Option QuizRecord :=
  store.find? completedQuizFilter

/-! ## C10: the multer upload gate (backend/routes/quiz.js lines 10-46) -/

/-- The `allowedTypes` list of the `fileFilter` (routes/quiz.js lines 22-27). -/
def allowedMimeTypes : List String :=
  ["application/pdf",
   "application/vnd.openxmlformats-officedocument.wordprocessingml.document",
   "application/vnd.openxmlformats-officedocument.presentationml.presentation",
   "text/plain"]

/-- The `fileFilter` callback: accept exactly the allowed mimetypes. -/
def fileFilterAccepts (mime : String) : Bool :=
  allowedMimeTypes.contains mime

/-- The multer limit `fileSize: 10 * 1024 * 1024`. -/
def maxFileSizeBytes : Nat := 10 * 1024 * 1024

/-- The route `upload.array('files', 10)`: at most 10 files per request. -/
def maxFileCount : Nat := 10

/-- A file of a multipart upload request as multer sees it. -/
structure IncomingFile where
  mimetype : String
  size : Nat
deriving DecidableEq, Repr

/-- The multer middleware configured in routes/quiz.js, applied before
`quizController.uploadFiles`: the request reaches the controller exactly
when there are at most `maxFileCount` files, every file is within the
size limit, and every mimetype passes `fileFilter` (multer otherwise
aborts the request with an error). -/
def multerGateAccepts (files : List IncomingFile) : Bool :=
  decide (files.length ≤ maxFileCount) &&
    files.all (fun f =>
      decide (f.size ≤ maxFileSizeBytes) && fileFilterAccepts f.mimetype)

/-! ## Auxiliary definitions used by the theorems -/

/-- A question counts as unanswered for the session when its map entry
is missing or blank after trimming (the common test of
`areAllQuestionsAnswered` and `getUnansweredQuestions`). -/
def unansweredB (answers : List (String × String)) (q : Question) : Bool :=
  match mapGet answers q.qid with
  | some a => jsTrim a == ""
  | none => true

/-- Quote replacement as the claim words it: curly double quotes become
straight double quotes and curly single quotes become straight
apostrophes.  (Spec-side definition, for comparison with
`replaceQuoteClasses`.) -/
def claimReplaceCurlyQuotes (s : List Char) : List Char :=
  s.map (fun c =>
    if c = '“' ∨ c = '”' then '"'
    else if c = '‘' ∨ c = '’' then apostropheChar
    else c)

/-- The repair pipeline as the claim words it: identical to
`repairJsonText` except that the quote step replaces curly quotes with
straight ones.  (Spec-side definition.) -/
def claimRepairJsonText (textContent : String) : Except String String :=
  let t := stripCodeFences (trimChars textContent.toList)
  match firstIdxOf '[' t, lastIdxOf ']' t with
  | some firstBracket, some lastBracket =>
    let cut := (t.drop firstBracket).take (lastBracket + 1 - firstBracket)
    .ok (String.mk (removeTrailingCommas (claimReplaceCurlyQuotes cut)))
  | _, _ => .error "AI response does not contain a JSON array"

/-- Validation predicate as amended: like `claimValidQuestion` but
requiring the string `question_text` to be non-empty. -/
def claimValidQuestionAmended (quizTypes : List String)
    (q : List (String × JSVal)) : Bool :=
  (match getField q "question_text" with
   | .str s => s ≠ ""
   | _ => false) &&
    jsIncludes quizTypes (getField q "question_type") &&
    jsTruthy (getField q "correct_answer") &&
    (!(strictEqStr (getField q "question_type") "multiple-choice") ||
      isArrayLenGe2 (getField q "options"))

/-- The filter predicate extended to arbitrary non-throwing elements:
false on every non-object. -/
def validQuestionB (quizTypes : List String) (v : JSVal) : Bool :=
  match v with
  | .obj fs => validQuestion quizTypes fs
  | _ => false

/-- A concrete parsed question whose `question_text` is the empty
string (witness input for the C4 counterexample). -/
def emptyTextQuestion : List (String × JSVal) :=
  [("question_text", .str ""),
   ("question_type", .str "multiple-choice"),
   ("options", .arr [.str "A", .str "B"]),
   ("correct_answer", .str "A")]

/-! ## Theorems -/

/-- A character-level prefix keeps its length below the cut. -/
lemma jsSubstrTo_length_le (s : String) (n : Nat) :
    (jsSubstrTo s n).length ≤ n := by
  cases s with
  | mk data => simp [jsSubstrTo, String.length]

/-- Taking all characters of a string is the identity. -/
lemma jsSubstrTo_self (s : String) : jsSubstrTo s s.length = s := by
  cases s with
  | mk data => simp [jsSubstrTo, String.length, String.toList]

/-- Appending the empty string is the identity. -/
lemma string_append_empty (s : String) : s ++ "" = s := by
  cases s with
  | mk data =>
    show String.mk (data ++ []) = String.mk data
    simp

/-- C9: the combined extracted text (joined with the separator) is
truncated to its first 30000 characters plus a truncation marker exactly
when it exceeds 30000 characters, and the source material embedded in
the prompt is always a prefix of the combined text of at most 30000
characters. -/
theorem prompt_truncation_spec (extractedTexts : List String) :
    (¬ (combinedText extractedTexts).length > maxLength →
      truncatedText (combinedText extractedTexts) = combinedText extractedTexts) ∧
    ((combinedText extractedTexts).length > maxLength →
      truncatedText (combinedText extractedTexts) =
        jsSubstrTo (combinedText extractedTexts) maxLength ++ truncationMarker) ∧
    ∃ k rest, k ≤ maxLength ∧
      truncatedText (combinedText extractedTexts) =
        jsSubstrTo (combinedText extractedTexts) k ++ rest ∧
      (rest = "" ∨ rest = truncationMarker) := by
  refine ⟨fun h => by simp [truncatedText, h], fun h => by simp [truncatedText, h], ?_⟩
  by_cases h : (combinedText extractedTexts).length > maxLength
  · exact ⟨maxLength, truncationMarker, le_refl _, by simp [truncatedText, h], Or.inr rfl⟩
  · refine ⟨(combinedText extractedTexts).length, "", by omega, ?_, Or.inl rfl⟩
    rw [jsSubstrTo_self, string_append_empty]
    simp [truncatedText, h]

/-- Witness for C9 at a concrete input: a short text is embedded
unchanged. -/
theorem prompt_truncation_spec_witness :
    truncatedText (combinedText ["alpha", "beta"]) = combinedText ["alpha", "beta"] :=
  (prompt_truncation_spec ["alpha", "beta"]).1 (by decide)

/-- C10: the multer gate in front of the upload controller accepts a
request exactly when it carries at most 10 files, each of at most
10 * 1024 * 1024 bytes and of one of the four allowed mimetypes; a file
of any other mimetype makes the gate reject the request before the
controller runs. -/
theorem upload_gate_spec (files : List IncomingFile) :
    (multerGateAccepts files = true ↔
      files.length ≤ 10 ∧
        ∀ f ∈ files, f.size ≤ 10 * 1024 * 1024 ∧
          (f.mimetype = "application/pdf" ∨
           f.mimetype = "application/vnd.openxmlformats-officedocument.wordprocessingml.document" ∨
           f.mimetype = "application/vnd.openxmlformats-officedocument.presentationml.presentation" ∨
           f.mimetype = "text/plain")) ∧
    (∀ f ∈ files, fileFilterAccepts f.mimetype = false →
      multerGateAccepts files = false) := by
  constructor
  · simp [multerGateAccepts, List.all_eq_true, fileFilterAccepts,
      allowedMimeTypes, maxFileCount, maxFileSizeBytes, List.contains,
      List.elem_iff]
  · intro f hf hrej
    simp only [multerGateAccepts, Bool.and_eq_false_iff]
    right
    rw [List.all_eq_false]
    exact ⟨f, hf, by simp [hrej]⟩

/-- Witness for C10 at a concrete input: an image upload is rejected. -/
theorem upload_gate_spec_witness :
    multerGateAccepts [⟨"image/png", 5⟩] = false :=
  (upload_gate_spec [⟨"image/png", 5⟩]).2 ⟨"image/png", 5⟩ (by simp)
    (by decide)

/-- C1: for a PDF upload, pdf-parse is tried first and alone when it
succeeds; pdf2json is attempted exactly when pdf-parse throws; OCR is
attempted exactly when pdf2json also throws; and when all three throw,
the file is persisted with `is_processed = false`,
`extracted_text = null` and a `processing_error` recording the original
pdf-parse error, the request still answering 200. -/
theorem pdf_extraction_fallback_spec (t e1 e2 e3 : String)
    (r2 r3 txr dox : Except String String)
    (rest : List (String × ExtractOracles)) :
    (runPdfExtractionChain (.ok t) r2 r3).attempts = [.pdfParse] ∧
    (runPdfExtractionChain (.error e1) r2 r3).attempts.head? =
      some .pdfParse ∧
    ((runPdfExtractionChain (.error e1) r2 r3).attempts.contains
      .pdf2json) = true ∧
    ((runPdfExtractionChain (.ok t) r2 r3).attempts.contains
      .pdf2json) = false ∧
    ((runPdfExtractionChain (.error e1) (.error e2) r3).attempts.contains
      .tesseractOCR) = true ∧
    ((runPdfExtractionChain (.error e1) (.ok t) r3).attempts.contains
      .tesseractOCR) = false ∧
    (uploadFiles (("application/pdf",
        ⟨txr, .error e1, .error e2, .error e3, dox⟩) :: rest)).1 = 200 ∧
    (uploadFiles (("application/pdf",
        ⟨txr, .error e1, .error e2, .error e3, dox⟩) :: rest)).2.head? =
      some ⟨"application/pdf", none, false,
        some ("All PDF extraction methods failed. Original error: " ++ e1)⟩ := by
  refine ⟨rfl, ?_, ?_, ?_, ?_, ?_, ?_, ?_⟩
  · cases r2 <;> cases r3 <;> rfl
  · cases r2 <;> cases r3 <;> rfl
  · rfl
  · cases r3 <;> rfl
  · rfl
  · simp [uploadFiles]
  · simp [uploadFiles, processUploadedFile, runPdfExtractionChain,
      jsOrNull, jsTruthyOptStr]

/-- Rounding a rational in `[0, 100]` keeps the result in `[0, 100]`. -/
lemma mathRound_bounds (q : ℚ) (h0 : 0 ≤ q) (h1 : q ≤ 100) :
    0 ≤ mathRound q ∧ mathRound q ≤ 100 := by
  constructor
  · exact Int.le_floor.mpr (by push_cast; linarith)
  · have h : (q + 1 / 2 : ℚ) < (101 : ℤ) := by push_cast; linarith
    have h2 : mathRound q < 101 := Int.floor_lt.mpr h
    omega

/-- The score formula stays within `[0, 100]` when at most every question
is counted correct. -/
lemma score_formula_bounds (c len : Nat) (hc : c ≤ len) (hlen : 0 < len) :
    0 ≤ mathRound ((c : ℚ) / (len : ℚ) * 100) ∧
      mathRound ((c : ℚ) / (len : ℚ) * 100) ≤ 100 := by
  have hlen' : (0 : ℚ) < (len : ℚ) := by exact_mod_cast hlen
  have h0 : (0 : ℚ) ≤ (c : ℚ) / (len : ℚ) * 100 := by positivity
  have h1 : (c : ℚ) / (len : ℚ) * 100 ≤ 100 := by
    have hd : (c : ℚ) / (len : ℚ) ≤ 1 :=
      (div_le_one hlen').mpr (by exact_mod_cast hc)
    nlinarith
  exact mathRound_bounds _ h0 h1

/-- C2: an answer is graded correct iff it is non-empty after trimming
and equals the matched question's `correct_answer` after trimming and
lowercasing both sides; an answer matching no question is recorded as
incorrect; every stored attempt's score is
`Math.round(100 * correctCount / totalQuestions)` and lies in `[0, 100]`
(the `QuizAttempt` schema validates the range); and with at most one
correct answer counted per question the computed score is in range even
before validation. -/
theorem attempt_grading_spec (questions : List Question)
    (a : SubmittedAnswer) (answers : List SubmittedAnswer)
    (forcedByTimer : Option Bool) (q : Question) (d : AttemptData) :
    (questions.find? (fun qq => qq.qid = a.question_id) = some q →
      ((gradeAnswer questions a).is_correct = true ↔
        jsTrim (jsOrEmpty a.user_answer) ≠ "" ∧
          jsToLower (jsTrim (jsOrEmpty a.user_answer)) =
            jsToLower (jsTrim q.correct_answer))) ∧
    (questions.find? (fun qq => qq.qid = a.question_id) = none →
      (gradeAnswer questions a).is_correct = false) ∧
    ((processAttempt questions answers forcedByTimer).answers =
      answers.map (gradeAnswer questions)) ∧
    (quizAttemptCreate (processAttempt questions answers forcedByTimer) =
        .ok d →
      d.score = (if 0 < questions.length then
          mathRound ((((answers.map (gradeAnswer questions)).countP
              (fun g => g.is_correct) : ℚ) / (questions.length : ℚ)) * 100)
        else 0) ∧
      0 ≤ d.score ∧ d.score ≤ 100) ∧
    ((answers.map (gradeAnswer questions)).countP
        (fun g => g.is_correct) ≤ questions.length →
      0 ≤ (processAttempt questions answers forcedByTimer).score ∧
        (processAttempt questions answers forcedByTimer).score ≤ 100) := by
  refine ⟨?_, ?_, rfl, ?_, ?_⟩
  · intro hfind
    simp [gradeAnswer, hfind, jsOrEmpty]
  · intro hfind
    simp [gradeAnswer, hfind]
  · intro hok
    unfold quizAttemptCreate at hok
    split at hok
    · rename_i hrange
      cases hok
      exact ⟨rfl, hrange.1, hrange.2⟩
    · cases hok
  · intro hle
    show 0 ≤ (processAttempt questions answers forcedByTimer).score ∧ _
    unfold processAttempt
    simp only
    split
    · rename_i hpos
      exact score_formula_bounds _ _ hle hpos
    · exact ⟨le_refl 0, by norm_num⟩

/-- Witness for C2: a concrete one-question quiz, graded and stored. -/
theorem attempt_grading_spec_witness :
    (gradeAnswer [⟨"q1", "Capital?", "multiple-choice", ["Paris", "Rome"],
        "Paris"⟩] ⟨"q1", some " PARIS ", 0⟩).is_correct = true ∧
    (gradeAnswer [⟨"q1", "Capital?", "multiple-choice", ["Paris", "Rome"],
        "Paris"⟩] ⟨"zz", some "Paris", 0⟩).is_correct = false ∧
    0 ≤ (processAttempt [⟨"q1", "Capital?", "multiple-choice",
        ["Paris", "Rome"], "Paris"⟩] [⟨"q1", some " PARIS ", 0⟩] none).score := by
  have h := attempt_grading_spec
    [⟨"q1", "Capital?", "multiple-choice", ["Paris", "Rome"], "Paris"⟩]
    ⟨"q1", some " PARIS ", 0⟩ [⟨"q1", some " PARIS ", 0⟩] none
    ⟨"q1", "Capital?", "multiple-choice", ["Paris", "Rome"], "Paris"⟩
    (processAttempt [⟨"q1", "Capital?", "multiple-choice",
      ["Paris", "Rome"], "Paris"⟩] [⟨"q1", some " PARIS ", 0⟩] none)
  have h2 := attempt_grading_spec
    [⟨"q1", "Capital?", "multiple-choice", ["Paris", "Rome"], "Paris"⟩]
    ⟨"zz", some "Paris", 0⟩ [] none
    ⟨"q1", "Capital?", "multiple-choice", ["Paris", "Rome"], "Paris"⟩
    (processAttempt [⟨"q1", "Capital?", "multiple-choice",
      ["Paris", "Rome"], "Paris"⟩] [] none)
  refine ⟨(h.1 (by decide)).mpr ⟨by decide, by decide⟩,
    h2.2.1 (by decide), (h.2.2.2.2 (by decide)).1⟩

/-- C5: when the countdown reaches zero with no submission in flight,
the tick submits with `forceSubmit = true`, bypassing the completeness
check; the answer array carries an entry for every question with
unanswered ones as empty strings; the stored attempt has
`forced_by_timer = true`; and a session sitting at zero remaining time
submits as well, so the session never continues past timeout without
submitting. -/
theorem timer_forced_submit_spec (st : SessionState) (qz : FrontQuiz)
    (prev : Int) (hq : st.quiz = some qz) (ht : st.hasToken = true)
    (hs : st.isSubmitting = false) :
    (st.timeRemaining = some prev → prev ≤ 1 →
      timerTick st = ({ st with timeRemaining := some 0 },
        some ⟨some ⟨buildAnswerArray qz.questions st.answers, true⟩,
          st.showIncompleteWarning, none⟩)) ∧
    (st.timeRemaining = some 0 →
      timeoutEffect st =
        some ⟨some ⟨buildAnswerArray qz.questions st.answers, true⟩,
          st.showIncompleteWarning, none⟩) ∧
    (buildAnswerArray qz.questions st.answers).length =
      qz.questions.length ∧
    (∀ q ∈ qz.questions, mapGet st.answers q.qid = none →
      (⟨q.qid, "", 0⟩ : AnswerOut) ∈
        buildAnswerArray qz.questions st.answers) ∧
    (∀ q ∈ qz.questions, ∀ a, mapGet st.answers q.qid = some a →
      (⟨q.qid, jsTrim a, 0⟩ : AnswerOut) ∈
        buildAnswerArray qz.questions st.answers) ∧
    (∀ (qs : List Question) (ans : List SubmittedAnswer),
      (processAttempt qs ans (some true)).forced_by_timer = true) := by
  have hsubmit : handleSubmitQuiz st true =
      ⟨some ⟨buildAnswerArray qz.questions st.answers, true⟩,
        st.showIncompleteWarning, none⟩ := by
    simp [handleSubmitQuiz, hq, ht, hs]
  refine ⟨?_, ?_, ?_, ?_, ?_, ?_⟩
  · intro htime hprev
    rw [timerTick, htime]
    simp [hprev, hsubmit]
  · intro htime
    rw [timeoutEffect, if_pos ⟨htime, hs⟩, hsubmit]
  · simp [buildAnswerArray]
  · intro q hmem hnone
    have h := List.mem_map_of_mem (fun q : Question =>
      (⟨q.qid, match mapGet st.answers q.qid with
               | some a => jsTrim a
               | none => "", 0⟩ : AnswerOut)) hmem
    simpa [buildAnswerArray, hnone] using h
  · intro q hmem a ha
    have h := List.mem_map_of_mem (fun q : Question =>
      (⟨q.qid, match mapGet st.answers q.qid with
               | some a => jsTrim a
               | none => "", 0⟩ : AnswerOut)) hmem
    simpa [buildAnswerArray, ha] using h
  · intro qs ans
    rfl

/-- Witness for C5: a one-question session whose timer expires. -/
theorem timer_forced_submit_spec_witness :
    timerTick ⟨some ⟨[⟨"q1", "Capital?", "fill-blank", [], "Paris"⟩],
        some 5⟩, true, 0, [], 0, some 1, false, false, true⟩ =
      (⟨some ⟨[⟨"q1", "Capital?", "fill-blank", [], "Paris"⟩], some 5⟩,
        true, 0, [], 0, some 0, false, false, true⟩,
       some ⟨some ⟨[⟨"q1", "", 0⟩], true⟩, false, none⟩) :=
  (timer_forced_submit_spec
    ⟨some ⟨[⟨"q1", "Capital?", "fill-blank", [], "Paris"⟩], some 5⟩,
      true, 0, [], 0, some 1, false, false, true⟩
    ⟨[⟨"q1", "Capital?", "fill-blank", [], "Paris"⟩], some 5⟩
    1 rfl rfl rfl).1 rfl (by decide)

/-- The mark-then-filter computation of `getUnansweredQuestions` computes
the `filterMap` of the unanswered indices. -/
lemma mark_filter_eq_filterMap (ans : List (String × String)) :
    ∀ l : List (Nat × Question),
      (l.map (fun p =>
        match mapGet ans p.2.qid with
        | some a => if jsTrim a = "" then (p.1 : Int) else -1
        | none => (p.1 : Int))).filter (fun i => i ≠ -1) =
      l.filterMap (fun p =>
        if unansweredB ans p.2 then some ((p.1 : Int)) else none)
  | [] => rfl
  | p :: l => by
    have hnonneg : ((p.1 : Int)) ≠ -1 := by omega
    have ih := mark_filter_eq_filterMap ans l
    cases hm : mapGet ans p.2.qid with
    | none =>
      simp only [List.map_cons, List.filter_cons, List.filterMap_cons,
        unansweredB, hm, hnonneg, ih]
      simp [hnonneg]
    | some a =>
      by_cases htrim : jsTrim a = ""
      · simp only [List.map_cons, List.filter_cons, List.filterMap_cons,
          unansweredB, hm, htrim, ih]
        simp [hnonneg, htrim]
      · simp only [List.map_cons, List.filter_cons, List.filterMap_cons,
          unansweredB, hm, htrim, ih]
        simp [htrim]

/-- The helper `getUnansweredQuestions` as a `filterMap` over the enumeration. -/
lemma getUnanswered_eq_filterMap (qz : FrontQuiz)
    (ans : List (String × String)) :
    getUnansweredQuestions (some qz) ans =
      qz.questions.enum.filterMap (fun p =>
        if unansweredB ans p.2 then some ((p.1 : Int)) else none) := by
  simpa [getUnansweredQuestions] using
    mark_filter_eq_filterMap ans qz.questions.enum

/-- Head of the unanswered-index list over an enumeration starting at
`n`: it is `n` plus the position of the first unanswered question, which
is unanswered while all earlier questions are answered. -/
lemma unanswered_head_spec (ans : List (String × String)) :
    ∀ (qs : List Question) (n : Nat),
      (∃ q ∈ qs, unansweredB ans q = true) →
      ∃ k qk, qs.get? k = some qk ∧ unansweredB ans qk = true ∧
        (∀ j qj, j < k → qs.get? j = some qj →
          unansweredB ans qj = false) ∧
        ((qs.enumFrom n).filterMap (fun p =>
          if unansweredB ans p.2 then some ((p.1 : Int)) else none)).head? =
          some ((n + k : Nat) : Int)
  | [], _, h => by simp at h
  | q :: qs, n, h => by
    by_cases hq : unansweredB ans q = true
    · refine ⟨0, q, rfl, hq, fun j qj hj _ => absurd hj (by omega), ?_⟩
      simp [List.enumFrom, hq]
    · have hq' : unansweredB ans q = false := by
        cases hqb : unansweredB ans q
        · rfl
        · exact absurd hqb hq
      have hrest : ∃ q' ∈ qs, unansweredB ans q' = true := by
        obtain ⟨q', hmem, hun⟩ := h
        rcases List.mem_cons.mp hmem with heq | hmem'
        · exact absurd (heq ▸ hun) hq
        · exact ⟨q', hmem', hun⟩
      obtain ⟨k, qk, hget, hun, hmin, hhead⟩ :=
        unanswered_head_spec ans qs (n + 1) hrest
      refine ⟨k + 1, qk, by simpa using hget, hun, ?_, ?_⟩
      · intro j qj hj hgj
        cases j with
        | zero => exact (by simpa using hgj : q = qj) ▸ hq'
        | succ j' => exact hmin j' qj (by omega) (by simpa using hgj)
      · have hn : ((n + 1) + k : Nat) = (n + (k + 1) : Nat) := by omega
        simpa [List.enumFrom, hq', hn] using hhead

/-- Not all questions answered means some question is unanswered. -/
lemma exists_unanswered_of_not_all (qz : FrontQuiz)
    (ans : List (String × String))
    (h : areAllQuestionsAnswered (some qz) ans = false) :
    ∃ q ∈ qz.questions, unansweredB ans q = true := by
  rw [areAllQuestionsAnswered, List.all_eq_false] at h
  obtain ⟨q, hmem, hfail⟩ := h
  refine ⟨q, hmem, ?_⟩
  rw [unansweredB]
  cases hm : mapGet ans q.qid with
  | none => rfl
  | some a =>
    rw [hm] at hfail
    simp at hfail
    simp [hfail]

/-- C6: a voluntary submission proceeds only when every question has a
non-blank answer; otherwise no request is sent, the incomplete warning
is shown, the view navigates to the first unanswered question, and the
submit button is disabled. -/
theorem voluntary_submit_spec (st : SessionState) (qz : FrontQuiz)
    (hq : st.quiz = some qz) (ht : st.hasToken = true)
    (hs : st.isSubmitting = false) :
    ((handleSubmitQuiz st false).request.isSome = true ↔
      areAllQuestionsAnswered (some qz) st.answers = true) ∧
    (areAllQuestionsAnswered (some qz) st.answers = false →
      handleSubmitQuiz st false =
        ⟨none, true, (getUnansweredQuestions (some qz) st.answers).head?⟩) ∧
    (areAllQuestionsAnswered (some qz) st.answers = false →
      ∃ k qk, qz.questions.get? k = some qk ∧
        unansweredB st.answers qk = true ∧
        (∀ j qj, j < k → qz.questions.get? j = some qj →
          unansweredB st.answers qj = false) ∧
        (getUnansweredQuestions (some qz) st.answers).head? =
          some ((k : Nat) : Int)) ∧
    (areAllQuestionsAnswered st.quiz st.answers = false →
      submitButtonDisabled st = true) := by
  refine ⟨?_, ?_, ?_, ?_⟩
  · by_cases hall : areAllQuestionsAnswered (some qz) st.answers = true
    · simp [handleSubmitQuiz, hq, ht, hs, hall]
    · simp [handleSubmitQuiz, hq, ht, hs,
        Bool.eq_false_iff.mpr hall, hall]
  · intro hall
    simp [handleSubmitQuiz, hq, ht, hs, hall]
  · intro hall
    obtain ⟨k, qk, hget, hun, hmin, hhead⟩ :=
      unanswered_head_spec st.answers qz.questions 0
        (exists_unanswered_of_not_all qz st.answers hall)
    refine ⟨k, qk, hget, hun, hmin, ?_⟩
    rw [getUnanswered_eq_filterMap]
    have henum : qz.questions.enum = qz.questions.enumFrom 0 := rfl
    rw [henum, hhead]
    norm_num
  · intro hall
    simp [submitButtonDisabled, hall]

/-- Witness for C6: a session with one blank answer refuses to submit
and navigates to question 0. -/
theorem voluntary_submit_spec_witness :
    handleSubmitQuiz ⟨some ⟨[⟨"q1", "Capital?", "fill-blank", [],
        "Paris"⟩], none⟩, true, 0, [("q1", "  ")], 0, none, false, false,
        true⟩ false =
      ⟨none, true, some 0⟩ := by
  have h := (voluntary_submit_spec
    ⟨some ⟨[⟨"q1", "Capital?", "fill-blank", [], "Paris"⟩], none⟩,
      true, 0, [("q1", "  ")], 0, none, false, false, true⟩
    ⟨[⟨"q1", "Capital?", "fill-blank", [], "Paris"⟩], none⟩
    rfl rfl rfl).2.1 (by decide)
  rw [h]
  rfl

/-- The idiom `n || 0` is the identity on a natural number. -/
lemma jsOrZero_eq (n : Nat) : jsOrZero n = n := by
  unfold jsOrZero
  split <;> omega

/-- After an upsert, a lookup under the same key finds a record carrying
exactly the saved fields, still in progress. -/
lemma findProgress_upsert (quizId userId : String) (b : ProgressBody) :
    ∀ store : List ProgressRecord,
      ∃ p, findProgress quizId userId
          (upsertProgress quizId userId b store) = some p ∧
        p.current_question_index = b.currentQuestionIndex ∧
        p.answers = b.answers ∧ p.start_time = b.startTime ∧
        p.time_remaining = b.timeRemaining ∧ p.is_completed = false
  | [] => by
    refine ⟨⟨quizId, userId, b.currentQuestionIndex, b.answers,
      b.startTime, b.timeRemaining, false⟩, ?_, rfl, rfl, rfl, rfl, rfl⟩
    simp [findProgress, upsertProgress, progressKeyMatch]
  | r :: rs => by
    by_cases h : progressKeyMatch quizId userId r = true
    · have hcomp : r.is_completed = false := by
        rcases Bool.and_eq_true .. |>.mp h with ⟨-, h2⟩
        simpa using h2
      refine ⟨{ r with
          current_question_index := b.currentQuestionIndex
          answers := b.answers
          start_time := b.startTime
          time_remaining := b.timeRemaining }, ?_, rfl, rfl, rfl, rfl, hcomp⟩
      have hmatch : progressKeyMatch quizId userId
          { r with
            current_question_index := b.currentQuestionIndex
            answers := b.answers
            start_time := b.startTime
            time_remaining := b.timeRemaining } = true := h
      simp [findProgress, upsertProgress, h, List.find?_cons, hmatch]
    · obtain ⟨p, hfind, h1, h2, h3, h4, h5⟩ :=
        findProgress_upsert quizId userId b rs
      refine ⟨p, ?_, h1, h2, h3, h4, h5⟩
      have hb : progressKeyMatch quizId userId r = false :=
        Bool.eq_false_iff.mpr h
      simp only [upsertProgress, if_neg h]
      rw [findProgress] at hfind ⊢
      simp [List.find?_cons, hb, hfind]

/-- An upsert leaves at least one record under the key. -/
lemma countP_upsert_pos (quizId userId : String) (b : ProgressBody) :
    ∀ store : List ProgressRecord,
      1 ≤ (upsertProgress quizId userId b store).countP
        (progressKeyMatch quizId userId)
  | [] => by simp [upsertProgress, progressKeyMatch]
  | r :: rs => by
    by_cases h : progressKeyMatch quizId userId r = true
    · have hmatch : progressKeyMatch quizId userId
          { r with
            current_question_index := b.currentQuestionIndex
            answers := b.answers
            start_time := b.startTime
            time_remaining := b.timeRemaining } = true := h
      simp [upsertProgress, h, List.countP_cons, hmatch]
    · have hb : progressKeyMatch quizId userId r = false :=
        Bool.eq_false_iff.mpr h
      have ih := countP_upsert_pos quizId userId b rs
      simp only [upsertProgress, if_neg h]
      simpa [List.countP_cons, hb] using ih

/-- An upsert never increases the number of keyed records beyond one. -/
lemma countP_upsert_le (quizId userId : String) (b : ProgressBody) :
    ∀ store : List ProgressRecord,
      (upsertProgress quizId userId b store).countP
          (progressKeyMatch quizId userId) ≤
        max 1 (store.countP (progressKeyMatch quizId userId))
  | [] => by simp [upsertProgress, progressKeyMatch]
  | r :: rs => by
    by_cases h : progressKeyMatch quizId userId r = true
    · have hmatch : progressKeyMatch quizId userId
          { r with
            current_question_index := b.currentQuestionIndex
            answers := b.answers
            start_time := b.startTime
            time_remaining := b.timeRemaining } = true := h
      simp [upsertProgress, h, List.countP_cons, hmatch]
    · have hb : progressKeyMatch quizId userId r = false :=
        Bool.eq_false_iff.mpr h
      have ih := countP_upsert_le quizId userId b rs
      simp only [upsertProgress, if_neg h]
      simp [List.countP_cons, hb]
      omega

/-- Restoring a still-in-progress record reproduces its fields in the
session, provided the target session is fresh and a missing saved time
only occurs for untimed (or zero-limit) quizzes. -/
lemma restore_fields (qz : FrontQuiz) (st₀ : SessionState)
    (p : ProgressRecord) (hcomp : p.is_completed = false)
    (h₀ : st₀.timeRemaining = none)
    (hnone : p.time_remaining = none →
      qz.time_limit = none ∨ qz.time_limit = some 0) :
    (restoreFromProgress qz st₀ (some p)).currentQuestionIndex =
      p.current_question_index ∧
    (restoreFromProgress qz st₀ (some p)).answers = p.answers ∧
    (restoreFromProgress qz st₀ (some p)).timeRemaining =
      p.time_remaining ∧
    (restoreFromProgress qz st₀ (some p)).startTime = p.start_time := by
  cases ht : p.time_remaining with
  | some t => simp [restoreFromProgress, hcomp, ht, jsOrZero_eq]
  | none =>
    rcases hnone ht with hql | hql <;>
      simp [restoreFromProgress, hcomp, ht, hql, jsOrZero_eq, h₀]

/-- C7: saving the session and reloading restores exactly the saved
question index, answers map, remaining time and start time, and the
upsert keeps a single in-progress record per `(quiz_id, user_id)`. -/
theorem progress_autosave_roundtrip_spec (st st₀ : SessionState)
    (qz : FrontQuiz) (store : List ProgressRecord)
    (quizId userId : String)
    (hnone : st.timeRemaining = none →
      qz.time_limit = none ∨ qz.time_limit = some 0)
    (h₀ : st₀.timeRemaining = none) :
    (∃ p, findProgress quizId userId
        (upsertProgress quizId userId (savePayload st) store) = some p ∧
      p.current_question_index = st.currentQuestionIndex ∧
      p.answers = st.answers ∧
      p.start_time = st.startTime ∧
      p.time_remaining = st.timeRemaining ∧
      (restoreFromProgress qz st₀ (some p)).currentQuestionIndex =
        st.currentQuestionIndex ∧
      (restoreFromProgress qz st₀ (some p)).answers = st.answers ∧
      (restoreFromProgress qz st₀ (some p)).timeRemaining =
        st.timeRemaining ∧
      (restoreFromProgress qz st₀ (some p)).startTime = st.startTime) ∧
    1 ≤ (upsertProgress quizId userId (savePayload st) store).countP
      (progressKeyMatch quizId userId) ∧
    (store.countP (progressKeyMatch quizId userId) ≤ 1 →
      (upsertProgress quizId userId (savePayload st) store).countP
        (progressKeyMatch quizId userId) ≤ 1) := by
  obtain ⟨p, hfind, h1, h2, h3, h4, h5⟩ :=
    findProgress_upsert quizId userId (savePayload st) store
  have hfields := restore_fields qz st₀ p h5 h₀
    (fun h => hnone (h4.symm.trans h))
  refine ⟨⟨p, hfind, h1, h2, h3, h4,
      by rw [hfields.1, h1]; rfl,
      by rw [hfields.2.1, h2]; rfl,
      by rw [hfields.2.2.1, h4]; rfl,
      by rw [hfields.2.2.2, h3]; rfl⟩,
    countP_upsert_pos quizId userId (savePayload st) store, ?_⟩
  intro hle
  have := countP_upsert_le quizId userId (savePayload st) store
  omega

/-- Witness for C7: a concrete timed session saved into an empty store
keeps exactly one in-progress record. -/
theorem progress_autosave_roundtrip_spec_witness :
    1 ≤ (upsertProgress "quiz1" "user1"
        (savePayload ⟨some ⟨[⟨"q1", "Capital?", "fill-blank", [],
          "Paris"⟩], some 5⟩, true, 2, [("q1", "A")], 123, some 30,
          false, false, true⟩) []).countP
      (progressKeyMatch "quiz1" "user1") ∧
    (upsertProgress "quiz1" "user1"
        (savePayload ⟨some ⟨[⟨"q1", "Capital?", "fill-blank", [],
          "Paris"⟩], some 5⟩, true, 2, [("q1", "A")], 123, some 30,
          false, false, true⟩) []).countP
      (progressKeyMatch "quiz1" "user1") ≤ 1 := by
  have h := progress_autosave_roundtrip_spec
    ⟨some ⟨[⟨"q1", "Capital?", "fill-blank", [], "Paris"⟩], some 5⟩,
      true, 2, [("q1", "A")], 123, some 30, false, false, true⟩
    ⟨some ⟨[⟨"q1", "Capital?", "fill-blank", [], "Paris"⟩], some 5⟩,
      true, 0, [], 0, none, false, false, false⟩
    ⟨[⟨"q1", "Capital?", "fill-blank", [], "Paris"⟩], some 5⟩
    [] "quiz1" "user1"
    (fun hcontra => absurd hcontra (by decide)) rfl
  exact ⟨h.2.1, h.2.2 (by decide)⟩

/-- A successful validation/filtering stage returns a non-empty list
whenever at least one question was requested. -/
lemma filterAndSlice_ok_nonempty (quizTypes : List String)
    (totalQuestions : Nat) (qs l : List JSVal)
    (htot : 1 ≤ totalQuestions)
    (h : filterAndSlice quizTypes totalQuestions qs = .ok l) : l ≠ [] := by
  unfold filterAndSlice at h
  cases hf : filterQuestionsE quizTypes qs with
  | error e => rw [hf] at h; cases h
  | ok valid =>
    rw [hf] at h
    dsimp only at h
    by_cases h1 : valid.isEmpty = true
    · rw [if_pos h1] at h; cases h
    · rw [if_neg h1] at h
      by_cases h2 : 2 * valid.length < totalQuestions
      · rw [if_pos h2] at h; cases h
      · rw [if_neg h2] at h
        cases h
        have hvne : valid ≠ [] := by simpa using h1
        intro htake
        rcases List.take_eq_nil_iff.mp htake with h0 | h0
        · omega
        · exact hvne h0

/-- A successful validation/filtering stage returns at most the
requested number of questions. -/
lemma filterAndSlice_ok_length (quizTypes : List String)
    (totalQuestions : Nat) (qs l : List JSVal)
    (h : filterAndSlice quizTypes totalQuestions qs = .ok l) :
    l.length ≤ totalQuestions := by
  unfold filterAndSlice at h
  cases hf : filterQuestionsE quizTypes qs with
  | error e => rw [hf] at h; cases h
  | ok valid =>
    rw [hf] at h
    dsimp only at h
    by_cases h1 : valid.isEmpty = true
    · rw [if_pos h1] at h; cases h
    · rw [if_neg h1] at h
      by_cases h2 : 2 * valid.length < totalQuestions
      · rw [if_pos h2] at h; cases h
      · rw [if_neg h2] at h
        cases h
        exact List.length_take_le _ _

/-- A successful generation pipeline run went through parsing and then
validation. -/
lemma generateQuizPipeline_ok (jsonParse : String → Option JSVal)
    (textContent : String) (quizTypes : List String)
    (totalQuestions : Nat) (l : List JSVal)
    (h : generateQuizPipeline jsonParse textContent quizTypes
      totalQuestions = .ok l) :
    ∃ qs, parseAIResponse jsonParse textContent = .ok qs ∧
      filterAndSlice quizTypes totalQuestions qs = .ok l := by
  unfold generateQuizPipeline at h
  cases hp : parseAIResponse jsonParse textContent with
  | error e => rw [hp] at h; cases h
  | ok qs =>
    rw [hp] at h
    exact ⟨qs, rfl, h⟩

/-- C8: a quiz is created `generating` and the generate endpoint answers
202; the generation promise resolves the record exactly once, to
`completed` with the questions or to `failed` with the error, never back
to `generating`; the status enum has exactly the three values; the
`getQuiz`/`submitQuizAttempt` filter only surfaces completed, undeleted
quizzes; and a reachable completed quiz has a non-empty question list
whenever at least one question was requested. -/
theorem quiz_lifecycle_spec (jsonParse : String → Option JSVal)
    (quizTypes : List String) (totalQuestions : Nat) :
    newQuizRecord.status = .generating ∧
    generateQuizResponseStatus = 202 ∧
    (∀ s : QuizStatus, s = .generating ∨ s = .completed ∨ s = .failed) ∧
    (∀ (q : QuizRecord) (qs : List JSVal), resolveGeneration q (.ok qs) =
      { q with questions := qs, status := .completed }) ∧
    (∀ (q : QuizRecord) (e : String), resolveGeneration q (.error e) =
      { q with status := .failed, generation_error := some e }) ∧
    (∀ (q : QuizRecord) (r : Except String (List JSVal)),
      (resolveGeneration q r).status ≠ .generating) ∧
    (∀ (store : List QuizRecord) (q : QuizRecord),
      findCompletedQuiz store = some q →
        q.status = .completed ∧ q.is_deleted = false) ∧
    (∀ q : QuizRecord,
      QuizReachable jsonParse quizTypes totalQuestions q →
      q.status = .completed → 1 ≤ totalQuestions → q.questions ≠ []) := by
  refine ⟨rfl, rfl, ?_, fun q qs => rfl, fun q e => rfl, ?_, ?_, ?_⟩
  · intro s
    cases s
    · exact Or.inl rfl
    · exact Or.inr (Or.inl rfl)
    · exact Or.inr (Or.inr rfl)
  · intro q r
    cases r <;> simp [resolveGeneration]
  · intro store q hfind
    have hpred := List.find?_some hfind
    rw [completedQuizFilter] at hpred
    rcases Bool.and_eq_true .. |>.mp hpred with ⟨hdel, hstat⟩
    refine ⟨by simpa using hstat, by simpa using hdel⟩
  · intro q hreach
    induction hreach with
    | created =>
      intro hcomp
      exact absurd hcomp (by simp [newQuizRecord])
    | resolved q' text hr hgen ih =>
      intro hcomp htot
      cases hres : generateQuizPipeline jsonParse text quizTypes
          totalQuestions with
      | error e =>
        rw [hres] at hcomp
        simp [resolveGeneration] at hcomp
      | ok l =>
        simp only [resolveGeneration]
        obtain ⟨qs, -, hfs⟩ := generateQuizPipeline_ok _ _ _ _ _ hres
        exact filterAndSlice_ok_nonempty _ _ _ _ htot hfs

/-- Witness for C8: a concrete one-question generation run yields a
completed quiz with its question. -/
theorem quiz_lifecycle_spec_witness :
    (resolveGeneration newQuizRecord
      (generateQuizPipeline
        (fun _ => some (.arr [.obj [("question_text", .str "T"),
          ("question_type", .str "fill-blank"), ("options", .arr []),
          ("correct_answer", .str "A")]]))
        "doc" ["fill-blank"] 1)).questions ≠ [] := by
  refine (quiz_lifecycle_spec
    (fun _ => some (.arr [.obj [("question_text", .str "T"),
      ("question_type", .str "fill-blank"), ("options", .arr []),
      ("correct_answer", .str "A")]]))
    ["fill-blank"] 1).2.2.2.2.2.2.2 _ ?_ ?_ (by omega)
  · exact QuizReachable.resolved newQuizRecord "doc"
      QuizReachable.created rfl
  · rfl

/-- The quote-class passes of the source replace every character by
itself. -/
lemma replaceQuoteClasses_id : ∀ s : List Char, replaceQuoteClasses s = s
  | [] => rfl
  | c :: s => by
    have ih := replaceQuoteClasses_id s
    unfold replaceQuoteClasses at ih ⊢
    rw [List.map_cons, ih]
    by_cases h1 : c = '"'
    · rw [if_pos h1, h1]
    · rw [if_neg h1]
      by_cases h2 : c = apostropheChar
      · rw [if_pos h2, h2]
      · rw [if_neg h2]

/-- The array check only succeeds on a non-empty array, returning its
elements. -/
lemma checkQuestionsArray_ok (j : JSVal) (l : List JSVal)
    (h : checkQuestionsArray j = .ok l) : l ≠ [] := by
  cases j <;> try cases h
  rename_i qs
  rw [checkQuestionsArray] at h
  by_cases he : qs.isEmpty = true
  · rw [if_pos he] at h; cases h
  · rw [if_neg he] at h
    cases h
    simpa using he

/-- C3 (amended): a direct `JSON.parse` is tried first and its result is
used untouched; only on a parse failure does the repair pipeline run —
trim, strip fences, cut from the first `[` to the last `]`, apply the
quote-class passes (which replace ASCII quotes by themselves, leaving
the text unchanged), delete trailing commas — followed by a re-parse;
a missing bracket fails generation, and any successful parse yields a
non-empty array. -/
theorem llm_response_parse_repair_spec (jsonParse : String → Option JSVal)
    (textContent : String) :
    (∀ j, jsonParse textContent = some j →
      parseAIResponse jsonParse textContent = checkQuestionsArray j) ∧
    (jsonParse textContent = none →
      ∀ firstBracket lastBracket,
        firstIdxOf '['
          (stripCodeFences (trimChars textContent.toList)) =
            some firstBracket →
        lastIdxOf ']'
          (stripCodeFences (trimChars textContent.toList)) =
            some lastBracket →
        parseAIResponse jsonParse textContent =
          (match jsonParse (String.mk (removeTrailingCommas
              (replaceQuoteClasses
                (((stripCodeFences (trimChars textContent.toList)).drop
                    firstBracket).take
                  (lastBracket + 1 - firstBracket))))) with
           | some j => checkQuestionsArray j
           | none => .error "Unexpected token in JSON")) ∧
    (jsonParse textContent = none →
      (firstIdxOf '['
          (stripCodeFences (trimChars textContent.toList)) = none ∨
       lastIdxOf ']'
          (stripCodeFences (trimChars textContent.toList)) = none) →
      parseAIResponse jsonParse textContent =
        .error "AI response does not contain a JSON array") ∧
    (∀ s : List Char, replaceQuoteClasses s = s) ∧
    (∀ l, parseAIResponse jsonParse textContent = .ok l → l ≠ []) := by
  refine ⟨?_, ?_, ?_, replaceQuoteClasses_id, ?_⟩
  · intro j hj
    simp [parseAIResponse, hj]
  · intro hn firstBracket lastBracket hfb hlb
    have hrep : repairJsonText textContent =
        .ok (String.mk (removeTrailingCommas (replaceQuoteClasses
          (((stripCodeFences (trimChars textContent.toList)).drop
              firstBracket).take (lastBracket + 1 - firstBracket))))) := by
      simp only [repairJsonText]
      rw [hfb, hlb]
    simp [parseAIResponse, hn, hrep]
  · intro hn hmiss
    have hrep : repairJsonText textContent =
        .error "AI response does not contain a JSON array" := by
      simp only [repairJsonText]
      rcases hmiss with hm | hm
      · rw [hm]
      · rw [hm]
        cases firstIdxOf '['
            (stripCodeFences (trimChars textContent.toList)) <;> rfl
    simp [parseAIResponse, hn, hrep]
  · intro l hl
    rw [parseAIResponse] at hl
    cases hp : jsonParse textContent with
    | some j =>
      rw [hp] at hl
      exact checkQuestionsArray_ok j l hl
    | none =>
      rw [hp] at hl
      dsimp only at hl
      cases hr : repairJsonText textContent with
      | error e => rw [hr] at hl; cases hl
      | ok repaired =>
        rw [hr] at hl
        dsimp only at hl
        cases hp2 : jsonParse repaired with
        | some j =>
          rw [hp2] at hl
          exact checkQuestionsArray_ok j l hl
        | none => rw [hp2] at hl; cases hl

/-- Counterexample to C3 as stated: the quote step of the repair does
not turn curly quotes into straight quotes — the source regex classes
hold only ASCII quotes, so a curly-quoted response is repaired
unchanged, not to the straight-quoted text the claim predicts. -/
theorem llm_response_parse_repair_counterexample :
    repairJsonText "```json [“a”]" = .ok "[“a”]" ∧
    claimRepairJsonText "```json [“a”]" = .ok "[\"a\"]" ∧
    ("[“a”]" : String) ≠ "[\"a\"]" :=
  ⟨rfl, rfl, by decide⟩

/-- Witness for C3: a response that parses directly is used untouched. -/
theorem llm_response_parse_repair_spec_witness :
    parseAIResponse
      (fun s => if s = "[1]" then some (JSVal.arr [JSVal.num 1]) else none)
      "[1]" = checkQuestionsArray (JSVal.arr [JSVal.num 1]) :=
  (llm_response_parse_repair_spec
    (fun s => if s = "[1]" then some (JSVal.arr [JSVal.num 1]) else none)
    "[1]").1 (JSVal.arr [JSVal.num 1]) (by simp)

/-- On a list without `null`/`undefined` elements the filter callback
never throws, and the filter keeps exactly the valid elements. -/
lemma filterQuestionsE_no_throw (quizTypes : List String) :
    ∀ qs : List JSVal,
      (∀ v ∈ qs, v ≠ JSVal.null ∧ v ≠ JSVal.undefinedV) →
      filterQuestionsE quizTypes qs =
        .ok (qs.filter (validQuestionB quizTypes))
  | [], _ => rfl
  | v :: qs, h => by
    have hv := h v (List.mem_cons_self v qs)
    have ih := filterQuestionsE_no_throw quizTypes qs
      (fun w hw => h w (List.mem_cons_of_mem v hw))
    have hval : validQuestionE quizTypes v =
        .ok (validQuestionB quizTypes v) := by
      cases v with
      | null => exact absurd rfl hv.1
      | undefinedV => exact absurd rfl hv.2
      | boolean b => rfl
      | num q => rfl
      | str s => rfl
      | arr xs => rfl
      | obj fs => rfl
    rw [filterQuestionsE, hval, ih, List.filter_cons]

/-- With well-typed quiz types the code's truthiness guard on
`question_type` is subsumed by membership. -/
lemma truthy_includes_eq (quizTypes : List String)
    (htypes : ∀ t ∈ quizTypes,
      t = "multiple-choice" ∨ t = "fill-blank") (v : JSVal) :
    (jsTruthy v && jsIncludes quizTypes v) = jsIncludes quizTypes v := by
  cases v with
  | str s =>
    by_cases hm : s ∈ quizTypes
    · rcases htypes s hm with h | h <;> subst h <;>
        simp [jsTruthy, jsIncludes, hm]
    · simp [jsTruthy, jsIncludes, hm]
  | undefinedV => rfl
  | null => rfl
  | boolean b => simp [jsTruthy, jsIncludes]
  | num q => simp [jsTruthy, jsIncludes]
  | arr xs => simp [jsTruthy, jsIncludes]
  | obj fs => simp [jsTruthy, jsIncludes]

/-- Truthiness plus the string-type check say exactly: a non-empty
string. -/
lemma truthy_str_eq (v : JSVal) :
    (jsTruthy v && isStrType v) =
      (match v with
       | JSVal.str s => decide (s ≠ "")
       | _ => false) := by
  cases v <;> simp [jsTruthy, isStrType]

/-- C4 (amended): a parsed question object survives the filter iff it
has a non-empty string `question_text`, a `question_type` among the
requested quiz types, a truthy `correct_answer` and, for
multiple-choice, an options array of length at least 2; on an array of
such objects generation fails exactly when zero or fewer than half the
requested count survive, and otherwise returns the first
`min(valid, requested)` survivors — never more than requested. -/
theorem question_validation_spec (quizTypes : List String)
    (totalQuestions : Nat) (questions : List JSVal)
    (htypes : ∀ t ∈ quizTypes,
      t = "multiple-choice" ∨ t = "fill-blank")
    (hobj : ∀ v ∈ questions, v ≠ JSVal.null ∧ v ≠ JSVal.undefinedV) :
    (∀ q : List (String × JSVal),
      validQuestion quizTypes q = claimValidQuestionAmended quizTypes q) ∧
    filterQuestionsE quizTypes questions =
      .ok (questions.filter (validQuestionB quizTypes)) ∧
    ((∃ e, filterAndSlice quizTypes totalQuestions questions = .error e) ↔
      questions.filter (validQuestionB quizTypes) = [] ∨
        2 * (questions.filter (validQuestionB quizTypes)).length <
          totalQuestions) ∧
    (∀ l, filterAndSlice quizTypes totalQuestions questions = .ok l →
      l = (questions.filter (validQuestionB quizTypes)).take
            totalQuestions ∧
        l.length ≤ totalQuestions) := by
  have hfil := filterQuestionsE_no_throw quizTypes questions hobj
  refine ⟨?_, hfil, ?_, ?_⟩
  · intro q
    unfold validQuestion claimValidQuestionAmended
    rw [truthy_str_eq (getField q "question_text"),
      truthy_includes_eq quizTypes htypes (getField q "question_type")]
  · rw [filterAndSlice, hfil]
    dsimp only
    by_cases h1 : (questions.filter (validQuestionB quizTypes)).isEmpty = true
    · rw [if_pos h1]
      simp only [List.isEmpty_iff] at h1
      simp [h1]
    · rw [if_neg h1]
      simp only [List.isEmpty_iff] at h1
      by_cases h2 : 2 * (questions.filter (validQuestionB quizTypes)).length <
          totalQuestions
      · rw [if_pos h2]
        simp [h1, h2]
      · rw [if_neg h2]
        simp [h1, h2]
  · intro l hl
    rw [filterAndSlice, hfil] at hl
    dsimp only at hl
    by_cases h1 : (questions.filter (validQuestionB quizTypes)).isEmpty = true
    · rw [if_pos h1] at hl; cases hl
    · rw [if_neg h1] at hl
      by_cases h2 : 2 * (questions.filter (validQuestionB quizTypes)).length <
          totalQuestions
      · rw [if_pos h2] at hl; cases hl
      · rw [if_neg h2] at hl
        cases hl
        exact ⟨rfl, List.length_take_le _ _⟩

/-- Counterexample to C4 as stated: a question whose `question_text` is
the empty string has a string `question_text`, a requested type, a
truthy `correct_answer` and two options — the claim says it survives —
yet the filter drops it, because the code also requires
`q.question_text` to be truthy. -/
theorem question_validation_counterexample :
    validQuestion ["multiple-choice"] emptyTextQuestion = false ∧
    claimValidQuestion ["multiple-choice"] emptyTextQuestion = true :=
  ⟨rfl, rfl⟩

/-- Witness for C4: a valid one-question array passes the filter
whole. -/
theorem question_validation_spec_witness :
    filterQuestionsE ["multiple-choice"]
      [JSVal.obj [("question_text", JSVal.str "Q"),
        ("question_type", JSVal.str "multiple-choice"),
        ("options", JSVal.arr [JSVal.str "A", JSVal.str "B"]),
        ("correct_answer", JSVal.str "A")]] =
      .ok [JSVal.obj [("question_text", JSVal.str "Q"),
        ("question_type", JSVal.str "multiple-choice"),
        ("options", JSVal.arr [JSVal.str "A", JSVal.str "B"]),
        ("correct_answer", JSVal.str "A")]] := by
  have h := (question_validation_spec ["multiple-choice"] 1
    [JSVal.obj [("question_text", JSVal.str "Q"),
      ("question_type", JSVal.str "multiple-choice"),
      ("options", JSVal.arr [JSVal.str "A", JSVal.str "B"]),
      ("correct_answer", JSVal.str "A")]]
    (by intro t ht; simp at ht; exact Or.inl ht)
    (by
      intro v hv
      simp only [List.mem_singleton] at hv
      subst hv
      exact ⟨fun hc => JSVal.noConfusion hc,
        fun hc => JSVal.noConfusion hc⟩)).2.1
  rw [h]
  rfl

end Memora
